import Mathlib

/-
Verification of the plex-nfo-creator core against its source
(`plex_nfo_creator.py`).  The identifier extractor (`get_ids`), the
path resolver (`get_local_path`), the marker-file writer
(`create_nfo_file`) and the per-item loop body of `process_library`
are shallowly embedded as pure Lean functions.  External collaborators
(the filesystem, Unicode NFC normalization) are passed in as explicit
oracles; Python's `str.lower` is modelled as ASCII case folding; the
`platform.system() != 'Windows'` (POSIX) branches of the source are
the ones embedded, as noted at each definition.
-/

namespace PlexNfo

/-- Python truthiness of an optional string value stored in the `ids`
dictionary: `None` and the empty string are falsy, every other string
is truthy. -/
def truthy : Option String → Bool
  | none => false
  | some s => !(s == "")

/-- ASCII case folding of one character, modelling Python `str.lower`
(restricted to the ASCII fragment, which covers every identifier
scheme and value the program manipulates). -/
def lowerChar (c : Char) : Char :=
  if 65 ≤ c.toNat ∧ c.toNat ≤ 90 then Char.ofNat (c.toNat + 32) else c

/-- Model of Python `s.lower()` (ASCII fragment). -/
def lowerStr (s : String) : String := String.mk (s.data.map lowerChar)

/-- `startsWithL pat s` holds when `pat` is a prefix of `s`. -/
def startsWithL : List Char → List Char → Bool
  | [], _ => true
  | _ :: _, [] => false
  | a :: pa, b :: pb => a == b && startsWithL pa pb

/-- Index of the first occurrence of `pat` inside a character list,
scanning left to right (the scan Python `in` / `str.split` perform). -/
def firstOccur (pat : List Char) : List Char → Option Nat
  | [] => if startsWithL pat [] then some 0 else none
  | a :: t =>
    if startsWithL pat (a :: t) then some 0
    else (firstOccur pat t).map (· + 1)

/-- Model of the Python substring test `pat in s`. -/
def containsL (pat s : List Char) : Bool := (firstOccur pat s).isSome

/-- Characters before the first occurrence of `pat` (the whole list if
`pat` does not occur): Python `s.split(pat)[0]`. -/
def upToFirst (pat s : List Char) : List Char :=
  match firstOccur pat s with
  | none => s
  | some i => s.take i

/-- Characters after the first occurrence of `pat` (empty if `pat`
does not occur). -/
def afterFirstOcc (pat s : List Char) : List Char :=
  match firstOccur pat s with
  | none => []
  | some i => s.drop (i + pat.length)

/-- The annotation scheme markers searched for by `get_ids`. -/
def imdbSep : List Char := "imdb://".data

/-- The `tmdb://` scheme marker. -/
def tmdbSep : List Char := "tmdb://".data

/-- The `tvdb://` scheme marker. -/
def tvdbSep : List Char := "tvdb://".data

/-- Model of `g.split(sep)[1].split('?')[0]` for a separator that does
occur in `g` (the source only evaluates this under a `sep in g` guard):
the text after the first occurrence of `sep`, truncated at the next
occurrence of `sep` and at the first `?`. -/
def schemeValue (sep g : List Char) : String :=
  String.mk (upToFirst ['?'] (upToFirst sep (afterFirstOcc sep g)))

/-- Leftmost match of the regex `pre(\d+)`: scan positions left to
right; at the first position where `pre` is followed by at least one
digit, return the (greedy) digit group. -/
def findDigitsAfter (pre : List Char) : List Char → Option (List Char)
  | [] => none
  | a :: t =>
    if startsWithL pre (a :: t) then
      let ds := ((a :: t).drop pre.length).takeWhile Char.isDigit
      if ds.isEmpty then findDigitsAfter pre t else some ds
    else findDigitsAfter pre t

/-- The literal `tt` of the IMDb regex `(tt\d+)`. -/
def ttPat : List Char := "tt".data

/-- Leftmost match of the regex `(tt\d+)` (group 1 = the whole
`tt`-plus-digits match). -/
def findImdbL (s : List Char) : Option (List Char) :=
  (findDigitsAfter ttPat s).map (fun ds => 't' :: 't' :: ds)

/-- The `ids` dictionary of `get_ids`: three optional identifiers. -/
structure Ids where
  imdb : Option String
  tmdb : Option String
  tvdb : Option String
deriving DecidableEq, Repr

/-- The all-`None` dictionary `get_ids` starts from. -/
def emptyIds : Ids := ⟨none, none, none⟩

/-- The `item_type` argument: `'movie'` (Leaf) or `'tv'` (Collection). -/
inductive ItemType where
  | movie
  | tv
deriving DecidableEq, Repr

/-- One entry of `item.fields`: a name and a raw string value. -/
structure Field where
  name : String
  value : String
deriving DecidableEq, Repr

/-- A catalog item as `get_ids` and the loop body read it.  `guids` and
`fields` model the plexapi accessors `item.guids` / `item.fields`; an
`Except.error` value models the accessor raising an exception (caught
by `get_ids`' outer `try`).  Each guid is modelled by its id string
(`guid.id` when present, else `str(guid)` — both are one string). -/
structure Item where
  title : String
  locations : List String
  guids : Except String (List String)
  fields : Except String (List Field)

/-- One iteration of the primary loop of `get_ids` (source lines
94–102): lowercase the annotation, then an `if/elif/elif` chain that
overwrites the matching scheme's entry. -/
def scanGuid (t : ItemType) (ids : Ids) (g : String) : Ids :=
  let gid := (lowerStr g).data
  if containsL imdbSep gid then
    { ids with imdb := some (schemeValue imdbSep gid) }
  else if containsL tmdbSep gid && (t == ItemType.movie) then
    { ids with tmdb := some (schemeValue tmdbSep gid) }
  else if containsL tvdbSep gid && (t == ItemType.tv) then
    { ids with tvdb := some (schemeValue tvdbSep gid) }
  else ids

/-- The primary (Method 1) scan of `get_ids` over the guid list. -/
def primaryScan (t : ItemType) (gs : List String) : Ids :=
  gs.foldl (scanGuid t) emptyIds

/-- The condition of source line 105 (without the outer `not`):
`ids['imdb'] or (ids['tmdb'] and item_type == 'movie') or
(ids['tvdb'] and item_type == 'tv')`, under Python truthiness. -/
def applicableFound (t : ItemType) (ids : Ids) : Bool :=
  truthy ids.imdb || (truthy ids.tmdb && (t == ItemType.movie))
    || (truthy ids.tvdb && (t == ItemType.tv))

/-- The IMDb block of the secondary loop (source lines 113–117): if
the imdb entry is still falsy, search the lowered field value with the
`(tt\d+)` regex. -/
def fieldImdbStep (ids : Ids) (v : List Char) : Ids :=
  if !truthy ids.imdb then
    match findImdbL v with
    | some m => { ids with imdb := some (String.mk m) }
    | none => ids
  else ids

/-- The TMDb block of the secondary loop (source lines 120–124):
movies only. -/
def fieldTmdbStep (t : ItemType) (ids : Ids) (v : List Char) : Ids :=
  if !truthy ids.tmdb && (t == ItemType.movie) then
    match findDigitsAfter tmdbSep v with
    | some ds => { ids with tmdb := some (String.mk ds) }
    | none => ids
  else ids

/-- The TVDB block of the secondary loop (source lines 127–131): tv
only. -/
def fieldTvdbStep (t : ItemType) (ids : Ids) (v : List Char) : Ids :=
  if !truthy ids.tvdb && (t == ItemType.tv) then
    match findDigitsAfter tvdbSep v with
    | some ds => { ids with tvdb := some (String.mk ds) }
    | none => ids
  else ids

/-- One iteration of the secondary loop of `get_ids` (source lines
109–131): on a field named `guid`, lowercase its value and run the
three sequential regex blocks. -/
def scanField (t : ItemType) (ids : Ids) (f : Field) : Ids :=
  if f.name == "guid" then
    let v := (lowerStr f.value).data
    fieldTvdbStep t (fieldTmdbStep t (fieldImdbStep ids v) v) v
  else ids

/-- Embedding of `get_ids(item, item_type)` (source lines 86–136).  A
failing `item.guids` read raises before anything is assigned, so the
outer `except` returns the empty dictionary with `method_used` still
`"primary"`; a failing `item.fields` read raises after `method_used`
was set to `"secondary"`, so the `except` returns the primary ids with
method `"secondary"`. -/
def get_ids (item : Item) (t : ItemType) : Ids × String :=
  match item.guids with
  | Except.error _ => (emptyIds, "primary")
  | Except.ok gs =>
    let ids := primaryScan t gs
    if applicableFound t ids then (ids, "primary")
    else
      match item.fields with
      | Except.error _ => (ids, "secondary")
      | Except.ok fl => (fl.foldl (scanField t) ids, "secondary")

/-- Splitting a character list at every occurrence of a separator
character (Python `s.split('/')`, which keeps empty parts). -/
def splitChar (c : Char) : List Char → List (List Char)
  | [] => [[]]
  | x :: xs =>
    match splitChar c xs with
    | [] => [[]]
    | h :: t => if x == c then [] :: h :: t else (x :: h) :: t

/-- Joining character lists with a separator (Python `'/'.join`). -/
def joinChar (c : Char) : List (List Char) → List Char
  | [] => []
  | [x] => x
  | x :: y :: t => x ++ c :: joinChar c (y :: t)

/-- Index of the last occurrence of a character (Python `s.rfind`). -/
def lastIndexOf (c : Char) (cs : List Char) : Option Nat :=
  (firstOccur [c] cs.reverse).map (fun i => cs.length - 1 - i)

/-- Port of CPython `posixpath.normpath`: collapse separators, drop
`.` components, resolve `..` lexically, preserve the special double
leading slash. -/
def posixNormpath (p : String) : String :=
  if p == "" then "." else
  let cs := p.data
  let slashes : Nat :=
    if startsWithL ['/', '/'] cs && !startsWithL ['/', '/', '/'] cs then 2
    else if startsWithL ['/'] cs then 1 else 0
  let comps := splitChar '/' cs
  let newComps := comps.foldl (fun acc comp =>
    if comp == ([] : List Char) || comp == ['.'] then acc
    else if comp != ['.', '.'] || (slashes == 0 && acc == ([] : List (List Char)))
        || (match acc.getLast? with | some l => l == ['.', '.'] | none => false) then
      acc ++ [comp]
    else if acc != ([] : List (List Char)) then acc.dropLast
    else acc) []
  let res := List.replicate slashes '/' ++ joinChar '/' newComps
  if res == ([] : List Char) then "." else String.mk res

/-- Python `posixpath.isabs`. -/
def posixIsAbs (p : String) : Bool := startsWithL ['/'] p.data

/-- Port of CPython `posixpath.join` for two components. -/
def posixJoin (a b : String) : String :=
  if posixIsAbs b then b
  else if a == "" || (match a.data.getLast? with | some c => c == '/' | none => false) then
    String.mk (a.data ++ b.data)
  else String.mk (a.data ++ '/' :: b.data)

/-- Port of CPython `posixpath.abspath`: prepend the working directory
when the path is relative, then normalize. -/
def posixAbspath (cwd p : String) : String :=
  if posixIsAbs p then posixNormpath p else posixNormpath (posixJoin cwd p)

/-- Embedding of `normalize_path` (source lines 138–148, POSIX
branch): `os.path.abspath` followed by `os.path.normpath`. -/
def normalize_path (cwd p : String) : String :=
  posixNormpath (posixAbspath cwd p)

/-- Port of CPython `posixpath.split`: cut after the last slash, then
strip trailing slashes off the head unless it is all slashes. -/
def posixSplitPath (p : String) : String × String :=
  let cs := p.data
  let i : Nat := match lastIndexOf '/' cs with | some j => j + 1 | none => 0
  let head := cs.take i
  let tail := cs.drop i
  let head2 :=
    if head ≠ [] ∧ ¬(head.all (· == '/')) then (head.reverse.dropWhile (· == '/')).reverse
    else head
  (String.mk head2, String.mk tail)

/-- Python `os.path.basename`. -/
def basename (p : String) : String := (posixSplitPath p).2

/-- Python `os.path.dirname`. -/
def dirname (p : String) : String := (posixSplitPath p).1

/-- Port of CPython `posixpath.splitext`: split at the last dot of the
final component, unless that component consists only of leading dots
up to it. -/
def splitext (p : String) : String × String :=
  let cs := p.data
  match lastIndexOf '.' cs with
  | none => (p, "")
  | some d =>
    let sepIdx : Option Nat := lastIndexOf '/' cs
    let fileStart : Nat := match sepIdx with | some s => s + 1 | none => 0
    if (match sepIdx with | some s => decide (s < d) | none => true) then
      let pre := (cs.drop fileStart).take (d - fileStart)
      if pre.any (· != '.') then (String.mk (cs.take d), String.mk (cs.drop d))
      else (p, "")
    else (p, "")

/-- One `os.walk` entry: the current root, its subdirectory names and
its file names, in traversal order. -/
abbrev WalkEntry := String × List String × List String

/-- The filesystem oracle: the results of `os.walk`, `os.path.exists`,
`os.path.isdir`, `os.path.isfile` and `os.access(…, W_OK)`, which the
source treats as read-only inputs during resolution. -/
structure FS where
  walk : String → List WalkEntry
  pathExists : String → Bool
  isDir : String → Bool
  isFile : String → Bool
  accessW : String → Bool

/-- Python `set(s)` for a string: its set of characters. -/
def charSet (s : String) : Finset Char := s.data.toFinset

/-- The similarity score of source lines 271 and 278:
`len(set(a) & set(b)) / max(len(a), len(b))` (exact rational
arithmetic models the Python float computation). -/
def simScore (a b : String) : ℚ :=
  ((charSet a ∩ charSet b).card : ℚ) / ((max a.data.length b.data.length : Nat) : ℚ)

/-- Model of Python `x in y` on strings. -/
def pyIn (x y : String) : Bool := containsL x.data y.data

/-- The candidate filter of the fuzzy match (source line 277):
`show_name in dir_name or dir_name in show_name`. -/
def substrEither (sn dn : String) : Bool := pyIn sn dn || pyIn dn sn

/-- One iteration of the fuzzy-match loop (source lines 276–281):
candidates related by substring get a score, and a strictly higher
score replaces the current best. -/
def fuzzyStepFold (sn : String) (acc : Option String × ℚ) (c : String × String) :
    Option String × ℚ :=
  if substrEither sn c.2 then
    let score := simScore sn c.2
    if acc.2 < score then (some (posixJoin c.1 c.2), score) else acc
  else acc

/-- The full fuzzy scan over all `(root, dir)` pairs of the walk,
starting from `best_match = None`, `best_match_score = 0`. -/
def fuzzyBest (sn : String) (cands : List (String × String)) : Option String × ℚ :=
  cands.foldl (fuzzyStepFold sn) (none, 0)

/-- The directory pairs the TV fallback iterates over, in walk
order. -/
def walkDirPairs (fs : FS) (rp : String) : List (String × String) :=
  (fs.walk rp).flatMap (fun e => e.2.1.map (fun d => (e.1, d)))

/-- The fuzzy folder match step for Collection (tv) items (source
lines 256–286): accept the best candidate only when its score exceeds
the 0.7 threshold. -/
def tvFuzzy (fs : FS) (rp sn : String) : Option String :=
  let best := fuzzyBest sn (walkDirPairs fs rp)
  if (7 : ℚ) / 10 < best.2 then best.1 else none

/-- The exact TV folder search (source lines 245–254, POSIX branch):
first walk entry whose subdirectories contain the show name. -/
def tvExact (fs : FS) (rp sn : String) : Option String :=
  (fs.walk rp).findSome? (fun e =>
    if e.2.1.contains sn then some (posixJoin e.1 sn) else none)

/-- The structured movie search (source lines 199–223, POSIX branch):
first walk entry containing the movie folder whose joined candidate
file exists. -/
def movieSearch (fs : FS) (rp folder file : String) : Option String :=
  (fs.walk rp).findSome? (fun e =>
    if e.2.1.contains folder then
      let pot := posixJoin (posixJoin e.1 folder) file
      if fs.pathExists pot then some pot else none
    else none)

/-- The filename-only movie fallback (source lines 226–237, POSIX
branch): first file anywhere under the root whose stem equals the
recorded stem. -/
def movieFallback (fs : FS) (rp stem : String) : Option String :=
  (fs.walk rp).findSome? (fun e =>
    e.2.2.findSome? (fun f =>
      if (splitext f).1 == stem then some (posixJoin e.1 f) else none))

/-- The ordered resolution steps of `get_local_path` after
normalization (source lines 167–298, POSIX branches; the Windows-only
drive-remapping steps of lines 173–188 and 289–298 are skipped on
POSIX exactly as in the source).  `none` means no step produced a
path. -/
def resolveSteps (fs : FS) (nfc : String → String) (pp rp : String) (t : ItemType) :
    Option String :=
  if startsWithL ['\\', '\\'] pp.data && fs.pathExists pp then some pp
  else match t with
    | ItemType.movie =>
      let folder := nfc (basename (dirname pp))
      let file := nfc (basename pp)
      match movieSearch fs rp folder file with
      | some r => some r
      | none => movieFallback fs rp ((splitext file).1)
    | ItemType.tv =>
      let sn := nfc (basename pp)
      match tvExact fs rp sn with
      | some r => some r
      | none => tvFuzzy fs rp sn

/-- Embedding of `get_local_path(plex_path, root_path, item_type)`
(source lines 150–302, POSIX branches).  `nfc` is the
`unicodedata.normalize('NFC', ·)` oracle and `cwd` the working
directory `os.path.abspath` resolves relative paths against.  When no
step matches, the (normalized) recorded path is returned — source
lines 300–302. -/
def get_local_path (fs : FS) (nfc : String → String) (cwd : String)
    (plex_path root_path : String) (t : ItemType) : String :=
  let pp := normalize_path cwd (nfc plex_path)
  let rp := normalize_path cwd (nfc root_path)
  match resolveSteps fs nfc pp rp t with
  | some r => r
  | none => pp

/-- The IMDb marker content of source lines 329 and 353. -/
def imdbUrl (s : String) : String := "https://www.imdb.com/title/" ++ s ++ "/"

/-- The TVDB marker content of source line 331. -/
def tvdbUrl (s : String) : String := "https://thetvdb.com/series/" ++ s

/-- The TMDb marker content of source line 355. -/
def tmdbUrl (s : String) : String := "https://www.themoviedb.org/movie/" ++ s

/-- Content selection for TV shows (source lines 327–334): IMDb first,
else TVDB, else failure. -/
def contentTv (ids : Ids) : Option String :=
  if truthy ids.imdb then (ids.imdb).map imdbUrl
  else if truthy ids.tvdb then (ids.tvdb).map tvdbUrl
  else none

/-- Content selection for movies (source lines 351–358): IMDb first,
else TMDb, else failure. -/
def contentMovie (ids : Ids) : Option String :=
  if truthy ids.imdb then (ids.imdb).map imdbUrl
  else if truthy ids.tmdb then (ids.tmdb).map tmdbUrl
  else none

/-- Embedding of `create_nfo_file` (source lines 304–373).  The result
is the returned boolean together with the list of file writes actually
performed, each a `(path, content)` pair; in the model the final
`open`/`write` of lines 366–367 succeeds whenever reached. -/
def create_nfo_file (fs : FS) (nfc : String → String) (cwd : String)
    (plex_path : String) (ids : Ids) (t : ItemType) (root_path : String)
    (dry_run : Bool) : Bool × List (String × String) :=
  let lp := get_local_path fs nfc cwd plex_path root_path t
  if !fs.pathExists lp then (false, [])
  else match t with
  | ItemType.tv =>
    if !fs.isDir lp then (false, [])
    else
      let nfoPath := posixJoin lp ("tvshow.nfo")
      if !fs.accessW lp then (false, [])
      else match contentTv ids with
        | none => (false, [])
        | some content =>
          if dry_run then (true, []) else (true, [(nfoPath, content)])
  | ItemType.movie =>
    if !fs.isFile lp then (false, [])
    else
      let movieDir := dirname lp
      let stem := (splitext (basename lp)).1
      let nfoPath := posixJoin movieDir (stem ++ ".nfo")
      if !fs.accessW movieDir then (false, [])
      else match contentMovie ids with
        | none => (false, [])
        | some content =>
          if dry_run then (true, []) else (true, [(nfoPath, content)])

/-- The per-item outcome counted by `process_library`. -/
inductive ItemResult where
  | success
  | failed
  | skipped
deriving DecidableEq, Repr

/-- Embedding of the loop body of `process_library` (source lines
398–426) for one item: the counter it increments, the extraction
method counted (when reached), and the file writes performed.  The
`has_id` test of line 418 is textually the same expression as the
line-105 condition, i.e. `applicableFound`. -/
def processItem (fs : FS) (nfc : String → String) (cwd : String) (t : ItemType)
    (root_path : String) (dry_run : Bool) (item : Item) :
    ItemResult × Option String × List (String × String) :=
  match item.locations with
  | [] => (ItemResult.skipped, none, [])
  | p :: _ =>
    let r := get_ids item t
    let has_id := applicableFound t r.1
    if has_id then
      let c := create_nfo_file fs nfc cwd p r.1 t root_path dry_run
      ((if c.1 then ItemResult.success else ItemResult.failed), some r.2, c.2)
    else (ItemResult.failed, some r.2, [])

/-- An annotation taken by the `imdb` branch of the primary scan. -/
def imdbAnn (g : String) : Bool := containsL imdbSep (lowerStr g).data

/-- An annotation reaching and taken by the `tmdb` elif branch for a
movie item (not an imdb match, and containing `tmdb://`). -/
def tmdbAnnMovie (g : String) : Bool :=
  !containsL imdbSep (lowerStr g).data && containsL tmdbSep (lowerStr g).data

/-- An annotation reaching and taken by the `tvdb` elif branch for a
tv item. -/
def tvdbAnnTv (g : String) : Bool :=
  !containsL imdbSep (lowerStr g).data && containsL tvdbSep (lowerStr g).data

/-- The value the primary scan stores for an annotation matched in
scheme `sep`. -/
def annValue (sep : List Char) (g : String) : String :=
  schemeValue sep (lowerStr g).data

/-- The identifier scheme specific to an item kind: tmdb for movies
(Leaf), tvdb for tv (Collection). -/
def kindSpecific : ItemType → Ids → Option String
  | ItemType.movie, ids => ids.tmdb
  | ItemType.tv, ids => ids.tvdb

lemma foldl_preserve {α : Type _} {β : Type _} (f : α → β → α) (P : α → Prop)
    (h : ∀ a b, P a → P (f a b)) :
    ∀ (l : List β) (a : α), P a → P (l.foldl f a) := by
  intro l
  induction l with
  | nil => intro a ha; exact ha
  | cons x xs ih => intro a ha; exact ih _ (h _ _ ha)

lemma lastOpt_cons {α : Type _} (a : α) (l : List α) :
    (a :: l).getLast? = some (match l.getLast? with | some x => x | none => a) := by
  induction l generalizing a with
  | nil => rfl
  | cons b m ih => rw [List.getLast?_cons_cons, ih b]

lemma scanGuid_imdb (t : ItemType) (ids : Ids) (g : String) :
    (scanGuid t ids g).imdb = if imdbAnn g then some (annValue imdbSep g) else ids.imdb := by
  by_cases h : containsL imdbSep (lowerStr g).data <;>
    simp [scanGuid, imdbAnn, annValue, h, apply_ite Ids.imdb]

lemma scanGuid_tmdb_movie (ids : Ids) (g : String) :
    (scanGuid ItemType.movie ids g).tmdb =
      if tmdbAnnMovie g then some (annValue tmdbSep g) else ids.tmdb := by
  by_cases h1 : containsL imdbSep (lowerStr g).data <;>
    by_cases h2 : containsL tmdbSep (lowerStr g).data <;>
      simp [scanGuid, tmdbAnnMovie, annValue, h1, h2, apply_ite Ids.tmdb]

lemma scanGuid_tvdb_tv (ids : Ids) (g : String) :
    (scanGuid ItemType.tv ids g).tvdb =
      if tvdbAnnTv g then some (annValue tvdbSep g) else ids.tvdb := by
  by_cases h1 : containsL imdbSep (lowerStr g).data <;>
    by_cases h3 : containsL tvdbSep (lowerStr g).data <;>
      simp [scanGuid, tvdbAnnTv, annValue, h1, h3, apply_ite Ids.tvdb]

lemma foldl_scan_last (t : ItemType) (get : Ids → Option String) (p : String → Bool)
    (v : String → String)
    (hstep : ∀ ids g, get (scanGuid t ids g) = if p g then some (v g) else get ids) :
    ∀ (gs : List String) (ids : Ids),
      get (gs.foldl (scanGuid t) ids) =
        match (gs.filter p).getLast? with
        | some g => some (v g)
        | none => get ids := by
  intro gs
  induction gs with
  | nil => intro ids; rfl
  | cons g gs ih =>
    intro ids
    rw [List.foldl_cons, ih (scanGuid t ids g), List.filter_cons]
    by_cases hp : p g
    · rw [if_pos hp, lastOpt_cons]
      cases hlast : (gs.filter p).getLast? with
      | some g' => rfl
      | none => simp [hstep, hp]
    · rw [if_neg hp]
      cases hlast : (gs.filter p).getLast? with
      | some g' => rfl
      | none => simp [hstep, hp]

lemma primaryScan_imdb (t : ItemType) (gs : List String) :
    (primaryScan t gs).imdb =
      match (gs.filter imdbAnn).getLast? with
      | some g => some (annValue imdbSep g)
      | none => none := by
  unfold primaryScan
  rw [foldl_scan_last t Ids.imdb imdbAnn (annValue imdbSep) (scanGuid_imdb t) gs emptyIds]
  cases (gs.filter imdbAnn).getLast? <;> rfl

lemma primaryScan_tmdb_movie (gs : List String) :
    (primaryScan ItemType.movie gs).tmdb =
      match (gs.filter tmdbAnnMovie).getLast? with
      | some g => some (annValue tmdbSep g)
      | none => none := by
  unfold primaryScan
  rw [foldl_scan_last ItemType.movie Ids.tmdb tmdbAnnMovie (annValue tmdbSep)
    scanGuid_tmdb_movie gs emptyIds]
  cases (gs.filter tmdbAnnMovie).getLast? <;> rfl

lemma primaryScan_tvdb_tv (gs : List String) :
    (primaryScan ItemType.tv gs).tvdb =
      match (gs.filter tvdbAnnTv).getLast? with
      | some g => some (annValue tvdbSep g)
      | none => none := by
  unfold primaryScan
  rw [foldl_scan_last ItemType.tv Ids.tvdb tvdbAnnTv (annValue tvdbSep)
    scanGuid_tvdb_tv gs emptyIds]
  cases (gs.filter tvdbAnnTv).getLast? <;> rfl

/-- C2, claim as stated is false: with the two imdb annotations
`imdb://tt0000001` and `imdb://tt0000002` (in that order) on a movie
item, the primary scan stores `tt0000002`, the value of the second
(last) annotation, not `tt0000001`, the value of the first: the
unguarded assignments of source lines 97–102 let later annotations of
the same scheme overwrite earlier ones. -/
theorem C2_counterexample :
    (["imdb://tt0000001", "imdb://tt0000002"].filter imdbAnn).length = 2
    ∧ annValue imdbSep ("imdb://tt0000001") = "tt0000001"
    ∧ (primaryScan ItemType.movie ["imdb://tt0000001", "imdb://tt0000002"]).imdb
        ≠ some ("tt0000001")
    ∧ (primaryScan ItemType.movie ["imdb://tt0000001", "imdb://tt0000002"]).imdb
        = some ("tt0000002") :=
  ⟨by decide, by decide, by decide, by decide⟩

/-- C2 (amended): in primary identifier extraction, for every item
whose annotation sequence contains two or more annotations of the same
scheme applicable to the item's kind, the value extracted for that
scheme comes from the LAST such annotation in the sequence; earlier
annotations of the same scheme are overwritten. -/
theorem C2_last_annotation_wins :
    (∀ (t : ItemType) (gs : List String) (g : String),
      2 ≤ (gs.filter imdbAnn).length → (gs.filter imdbAnn).getLast? = some g →
      (primaryScan t gs).imdb = some (annValue imdbSep g))
    ∧ (∀ (gs : List String) (g : String),
      2 ≤ (gs.filter tmdbAnnMovie).length → (gs.filter tmdbAnnMovie).getLast? = some g →
      (primaryScan ItemType.movie gs).tmdb = some (annValue tmdbSep g))
    ∧ (∀ (gs : List String) (g : String),
      2 ≤ (gs.filter tvdbAnnTv).length → (gs.filter tvdbAnnTv).getLast? = some g →
      (primaryScan ItemType.tv gs).tvdb = some (annValue tvdbSep g)) := by
  refine ⟨fun t gs g _ hlast => ?_, fun gs g _ hlast => ?_, fun gs g _ hlast => ?_⟩
  · rw [primaryScan_imdb, hlast]
  · rw [primaryScan_tmdb_movie, hlast]
  · rw [primaryScan_tvdb_tv, hlast]

/-- Witness for C2_last_annotation_wins at a concrete two-annotation
item. -/
theorem C2_last_annotation_wins_witness :
    2 ≤ ((["imdb://tt0000001", "imdb://tt0000002"] : List String).filter imdbAnn).length
    ∧ (primaryScan ItemType.movie ["imdb://tt0000001", "imdb://tt0000002"]).imdb
        = some (annValue imdbSep ("imdb://tt0000002")) :=
  ⟨by decide,
    C2_last_annotation_wins.1 ItemType.movie ["imdb://tt0000001", "imdb://tt0000002"]
      ("imdb://tt0000002") (by decide) (by decide)⟩

lemma applicableFound_movie (ids : Ids) :
    applicableFound ItemType.movie ids = (truthy ids.imdb || truthy ids.tmdb) := by
  simp [applicableFound]

lemma applicableFound_tv (ids : Ids) :
    applicableFound ItemType.tv ids = (truthy ids.imdb || truthy ids.tvdb) := by
  simp only [applicableFound, show (ItemType.tv == ItemType.movie) = false from rfl,
    show (ItemType.tv == ItemType.tv) = true from rfl, Bool.and_false, Bool.and_true,
    Bool.or_false]

lemma applicableFound_eq (t : ItemType) (ids : Ids) :
    applicableFound t ids = (truthy ids.imdb || truthy (kindSpecific t ids)) := by
  cases t
  · rw [applicableFound_movie]; rfl
  · rw [applicableFound_tv]; rfl

/-- C5, claim as stated is false on the second half: the item whose
annotations are `imdb://tt9999999` followed by the degenerate
`imdb://` contains an annotation of the form `imdb://tt9999999`, yet
the reported method is "secondary": the empty value of the later imdb
annotation overwrites `tt9999999`, and the empty string is falsy in
the line-105 check. -/
theorem C5_counterexample :
    ("imdb://tt9999999") ∈ (["imdb://tt9999999", "imdb://"] : List String)
    ∧ (get_ids ⟨"t", [], Except.ok ["imdb://tt9999999", "imdb://"], Except.ok []⟩
        ItemType.movie).2 = "secondary" :=
  ⟨by decide, by decide⟩

/-- C5 (amended): when the guid read succeeds, the secondary method is
attempted if and only if after the primary scan the imdb entry and the
kind-specific entry (tmdb for movie, tvdb for tv) are both absent
(falsy); and an item whose annotations contain one of the form
`imdb://tt9999999` reports method "primary" provided the last
imdb-scheme annotation carries a nonempty value. -/
theorem C5_secondary_trigger :
    (∀ (item : Item) (gs : List String) (t : ItemType), item.guids = Except.ok gs →
      (((get_ids item t).2 = "secondary") ↔
        (truthy (primaryScan t gs).imdb = false
          ∧ truthy (kindSpecific t (primaryScan t gs)) = false)))
    ∧ (∀ (item : Item) (gs : List String) (t : ItemType) (g : String),
      item.guids = Except.ok gs →
      ("imdb://tt9999999") ∈ gs → (gs.filter imdbAnn).getLast? = some g →
      annValue imdbSep g ≠ "" → (get_ids item t).2 = "primary") := by
  constructor
  · intro item gs t hok
    have hm : (get_ids item t).2
        = (if applicableFound t (primaryScan t gs) = true then ("primary" : String)
            else "secondary") := by
      simp only [get_ids, hok]
      by_cases happ : applicableFound t (primaryScan t gs) = true
      · simp [happ]
      · simp only [happ, if_false]
        cases hf : item.fields <;> simp [hf]
    by_cases happ : applicableFound t (primaryScan t gs) = true
    · rw [hm, if_pos happ]
      rw [applicableFound_eq] at happ
      constructor
      · intro h; exact absurd h (by decide)
      · rintro ⟨ha, hb⟩; rw [ha, hb] at happ; exact absurd happ (by decide)
    · rw [hm, if_neg happ]
      rw [applicableFound_eq, Bool.not_eq_true, Bool.or_eq_false_iff] at happ
      exact ⟨fun _ => ⟨happ.1, happ.2⟩, fun _ => rfl⟩
  · intro item gs t g hok _ hlast hval
    have himdb : (primaryScan t gs).imdb = some (annValue imdbSep g) := by
      rw [primaryScan_imdb, hlast]
    have htr : truthy (primaryScan t gs).imdb = true := by
      rw [himdb]; simpa [truthy] using hval
    have happ : applicableFound t (primaryScan t gs) = true := by
      rw [applicableFound_eq, htr, Bool.true_or]
    simp only [get_ids, hok]
    simp [happ]

/-- Concrete item used by the C5 witness. -/
def itemW9 : Item := ⟨"t", [], Except.ok ["imdb://tt9999999"], Except.ok []⟩

/-- Witness for C5_secondary_trigger: both halves applied to concrete
single-annotation items. -/
theorem C5_secondary_trigger_witness :
    (((get_ids itemW9 ItemType.movie).2 = "secondary") ↔
      (truthy (primaryScan ItemType.movie ["imdb://tt9999999"]).imdb = false
        ∧ truthy (kindSpecific ItemType.movie
            (primaryScan ItemType.movie ["imdb://tt9999999"])) = false))
    ∧ (get_ids itemW9 ItemType.movie).2 = "primary" :=
  ⟨C5_secondary_trigger.1 itemW9 ["imdb://tt9999999"] ItemType.movie rfl,
    C5_secondary_trigger.2 itemW9 ["imdb://tt9999999"] ItemType.movie
      ("imdb://tt9999999") rfl (by decide) (by decide) (by decide)⟩

lemma scanGuid_tv_tmdb (ids : Ids) (g : String) :
    (scanGuid ItemType.tv ids g).tmdb = ids.tmdb := by
  by_cases h1 : containsL imdbSep (lowerStr g).data <;>
    by_cases h3 : containsL tvdbSep (lowerStr g).data <;>
      simp [scanGuid, h1, h3]

lemma scanGuid_movie_tvdb (ids : Ids) (g : String) :
    (scanGuid ItemType.movie ids g).tvdb = ids.tvdb := by
  by_cases h1 : containsL imdbSep (lowerStr g).data <;>
    by_cases h2 : containsL tmdbSep (lowerStr g).data <;>
      simp [scanGuid, h1, h2]

lemma fieldImdbStep_tmdb (ids : Ids) (v : List Char) :
    (fieldImdbStep ids v).tmdb = ids.tmdb := by
  unfold fieldImdbStep
  split
  · split <;> rfl
  · rfl

lemma fieldImdbStep_tvdb (ids : Ids) (v : List Char) :
    (fieldImdbStep ids v).tvdb = ids.tvdb := by
  unfold fieldImdbStep
  split
  · split <;> rfl
  · rfl

lemma fieldTmdbStep_tv (ids : Ids) (v : List Char) :
    fieldTmdbStep ItemType.tv ids v = ids := by
  simp [fieldTmdbStep, show (ItemType.tv == ItemType.movie) = false from rfl]

lemma fieldTmdbStep_tvdb (t : ItemType) (ids : Ids) (v : List Char) :
    (fieldTmdbStep t ids v).tvdb = ids.tvdb := by
  unfold fieldTmdbStep
  split
  · split <;> rfl
  · rfl

lemma fieldTvdbStep_movie (ids : Ids) (v : List Char) :
    fieldTvdbStep ItemType.movie ids v = ids := by
  simp [fieldTvdbStep, show (ItemType.movie == ItemType.tv) = false from rfl]

lemma fieldTvdbStep_tmdb (t : ItemType) (ids : Ids) (v : List Char) :
    (fieldTvdbStep t ids v).tmdb = ids.tmdb := by
  unfold fieldTvdbStep
  split
  · split <;> rfl
  · rfl

lemma scanField_tv_tmdb (ids : Ids) (f : Field) :
    (scanField ItemType.tv ids f).tmdb = ids.tmdb := by
  unfold scanField
  split
  · simp only [fieldTvdbStep_tmdb, fieldTmdbStep_tv, fieldImdbStep_tmdb]
  · rfl

lemma scanField_movie_tvdb (ids : Ids) (f : Field) :
    (scanField ItemType.movie ids f).tvdb = ids.tvdb := by
  unfold scanField
  split
  · simp only [fieldTvdbStep_movie, fieldTmdbStep_tvdb, fieldImdbStep_tvdb]
  · rfl

lemma primary_tmdb_none_tv (gs : List String) :
    (primaryScan ItemType.tv gs).tmdb = none := by
  unfold primaryScan
  exact foldl_preserve (scanGuid ItemType.tv) (fun ids => ids.tmdb = none)
    (fun ids g hi => by
      show (scanGuid ItemType.tv ids g).tmdb = none
      rw [scanGuid_tv_tmdb]; exact hi) gs emptyIds rfl

lemma primary_tvdb_none_movie (gs : List String) :
    (primaryScan ItemType.movie gs).tvdb = none := by
  unfold primaryScan
  exact foldl_preserve (scanGuid ItemType.movie) (fun ids => ids.tvdb = none)
    (fun ids g hi => by
      show (scanGuid ItemType.movie ids g).tvdb = none
      rw [scanGuid_movie_tvdb]; exact hi) gs emptyIds rfl

lemma foldField_tmdb_none_tv (fl : List Field) (ids : Ids) (h : ids.tmdb = none) :
    (fl.foldl (scanField ItemType.tv) ids).tmdb = none :=
  foldl_preserve _ (fun ids => ids.tmdb = none)
    (fun ids f hi => by
      show (scanField ItemType.tv ids f).tmdb = none
      rw [scanField_tv_tmdb]; exact hi) fl ids h

lemma foldField_tvdb_none_movie (fl : List Field) (ids : Ids) (h : ids.tvdb = none) :
    (fl.foldl (scanField ItemType.movie) ids).tvdb = none :=
  foldl_preserve _ (fun ids => ids.tvdb = none)
    (fun ids f hi => by
      show (scanField ItemType.movie ids f).tvdb = none
      rw [scanField_movie_tvdb]; exact hi) fl ids h

lemma get_ids_tmdb_tv (item : Item) : (get_ids item ItemType.tv).1.tmdb = none := by
  cases hg : item.guids with
  | error e => simp [get_ids, hg, emptyIds]
  | ok gs =>
    simp only [get_ids, hg]
    by_cases happ : applicableFound ItemType.tv (primaryScan ItemType.tv gs) = true
    · simp [happ, primary_tmdb_none_tv]
    · simp only [happ, if_false]
      cases hf : item.fields with
      | error e => simpa using primary_tmdb_none_tv gs
      | ok fl => simpa using foldField_tmdb_none_tv fl _ (primary_tmdb_none_tv gs)

lemma get_ids_tvdb_movie (item : Item) : (get_ids item ItemType.movie).1.tvdb = none := by
  cases hg : item.guids with
  | error e => simp [get_ids, hg, emptyIds]
  | ok gs =>
    simp only [get_ids, hg]
    by_cases happ : applicableFound ItemType.movie (primaryScan ItemType.movie gs) = true
    · simp [happ, primary_tvdb_none_movie]
    · simp only [happ, if_false]
      cases hf : item.fields with
      | error e => simpa using primary_tvdb_none_movie gs
      | ok fl => simpa using foldField_tvdb_none_movie fl _ (primary_tvdb_none_movie gs)

/-- C9: for every item and either extraction method, the returned
IdentifierSet has tmdb populated only when the kind is movie (Leaf)
and tvdb populated only when the kind is tv (Collection): for a tv
item the tmdb entry is never assigned, and for a movie item the tvdb
entry is never assigned, in the primary and secondary scans alike. -/
theorem C9_kind_invariant (item : Item) (t : ItemType) :
    (t = ItemType.tv → (get_ids item t).1.tmdb = none)
    ∧ (t = ItemType.movie → (get_ids item t).1.tvdb = none) := by
  constructor
  · intro h; subst h; exact get_ids_tmdb_tv item
  · intro h; subst h; exact get_ids_tvdb_movie item

/-- Concrete item used by the C9 witness: its annotations offer both a
tmdb and a tvdb identifier. -/
def itemC9 : Item := ⟨"t", ["/p"], Except.ok ["tmdb://11", "tvdb://22"], Except.ok []⟩

/-- Witness for C9_kind_invariant: the cross-kind identifiers stay
absent on a concrete item carrying both schemes. -/
theorem C9_kind_invariant_witness :
    (get_ids itemC9 ItemType.tv).1.tmdb = none
    ∧ (get_ids itemC9 ItemType.movie).1.tvdb = none :=
  ⟨(C9_kind_invariant itemC9 ItemType.tv).1 rfl,
    (C9_kind_invariant itemC9 ItemType.movie).2 rfl⟩

/-- C6: for every item that is processed (it has a recorded location)
but whose extraction yields no identifier applicable to its kind (the
line-105/line-418 condition is falsy), the extracted IdentifierSet is
all-absent (all three entries falsy — and the cross-kind entry is
`none` outright by C9's invariant), and the loop body counts the item
as failed, reports the method, performs no file write, and never
invokes the writer: the result is the same for every filesystem
oracle, and the embedding is a total function, so no exception escapes
the loop body. -/
theorem C6_no_id_failed (fs : FS) (nfc : String → String) (cwd : String)
    (t : ItemType) (root_path : String) (dry_run : Bool) (item : Item)
    (p : String) (rest : List String)
    (hloc : item.locations = p :: rest)
    (hno : applicableFound t (get_ids item t).1 = false) :
    (truthy (get_ids item t).1.imdb = false
      ∧ truthy (get_ids item t).1.tmdb = false
      ∧ truthy (get_ids item t).1.tvdb = false)
    ∧ processItem fs nfc cwd t root_path dry_run item
        = (ItemResult.failed, some (get_ids item t).2, []) := by
  have hkey := hno
  rw [applicableFound_eq, Bool.or_eq_false_iff] at hkey
  constructor
  · refine ⟨hkey.1, ?_, ?_⟩
    · cases t with
      | movie => exact hkey.2
      | tv => rw [get_ids_tmdb_tv item]; rfl
    · cases t with
      | movie => rw [get_ids_tvdb_movie item]; rfl
      | tv => exact hkey.2
  · simp only [processItem, hloc]
    simp [hno]

/-- C7: the identifier extractor never fails.  First half: an error
raised while reading `item.fields` mid-extraction is caught and
treated exactly as if no field had been readable (the result equals
the result on the same item with an empty field list) — an
(IdentifierSet, method) pair is returned rather than an exception.
Second half: an error raised while reading `item.guids` is caught and
yields the all-absent pair with method "primary".  In both cases the
run is not aborted: `get_ids` is a total function into pairs. -/
theorem C7_extractor_total :
    (∀ (item : Item) (t : ItemType) (e : String), item.fields = Except.error e →
      get_ids item t
        = get_ids ⟨item.title, item.locations, item.guids, Except.ok []⟩ t)
    ∧ (∀ (item : Item) (t : ItemType) (e : String), item.guids = Except.error e →
      get_ids item t = (emptyIds, "primary")) := by
  constructor
  · intro item t e hf
    simp only [get_ids, hf]
    cases item.guids with
    | error e2 => rfl
    | ok gs => split <;> rfl
  · intro item t e hg
    simp only [get_ids, hg]

/-- Concrete item whose `fields` accessor raises, for the C7 witness. -/
def itemErrF : Item := ⟨"t", [], Except.ok ["x://y"], Except.error ("boom")⟩

/-- Concrete item whose `guids` accessor raises, for the C7 witness. -/
def itemErrG : Item := ⟨"t", [], Except.error ("boom"), Except.ok []⟩

/-- Witness for C7_extractor_total on the two concrete erroring
items. -/
theorem C7_extractor_total_witness :
    get_ids itemErrF ItemType.movie
      = get_ids ⟨itemErrF.title, itemErrF.locations, itemErrF.guids, Except.ok []⟩
          ItemType.movie
    ∧ get_ids itemErrG ItemType.tv = (emptyIds, "primary") :=
  ⟨C7_extractor_total.1 itemErrF ItemType.movie ("boom") rfl,
    C7_extractor_total.2 itemErrG ItemType.tv ("boom") rfl⟩

/-- A character that is not an ASCII uppercase letter. -/
def noUpperChar (c : Char) : Prop := ¬(65 ≤ c.toNat ∧ c.toNat ≤ 90)

/-- A string containing no ASCII uppercase letter. -/
def noUpper (s : String) : Prop := ∀ c ∈ s.data, noUpperChar c

lemma char_ofNat_toNat (n : Nat) (h : n < 55296) : (Char.ofNat n).toNat = n := by
  unfold Char.ofNat
  rw [dif_pos (Or.inl h)]
  rfl

lemma lowerChar_noUpper (c : Char) : noUpperChar (lowerChar c) := by
  unfold noUpperChar lowerChar
  by_cases h : 65 ≤ c.toNat ∧ c.toNat ≤ 90
  · rw [if_pos h]
    rw [char_ofNat_toNat (c.toNat + 32) (by omega)]
    omega
  · rw [if_neg h]
    exact h

lemma lowerStr_noUpper (g : String) : noUpper (lowerStr g) := by
  intro c hc
  have hc2 : c ∈ g.data.map lowerChar := hc
  obtain ⟨a, _, rfl⟩ := List.mem_map.mp hc2
  exact lowerChar_noUpper a

lemma upToFirst_subset (pat s : List Char) : upToFirst pat s ⊆ s := by
  unfold upToFirst
  split
  · exact fun c hc => hc
  · exact List.take_subset _ _

lemma afterFirstOcc_subset (pat s : List Char) : afterFirstOcc pat s ⊆ s := by
  unfold afterFirstOcc
  split
  · exact List.nil_subset s
  · exact List.drop_subset _ _

lemma schemeValue_data_subset (sep s : List Char) : (schemeValue sep s).data ⊆ s := by
  intro c hc
  have h1 : c ∈ upToFirst ['?'] (upToFirst sep (afterFirstOcc sep s)) := hc
  exact afterFirstOcc_subset sep s (upToFirst_subset sep _ (upToFirst_subset ['?'] _ h1))

lemma schemeValue_noUpper (sep : List Char) (g : String) :
    noUpper (schemeValue sep (lowerStr g).data) := by
  intro c hc
  exact lowerStr_noUpper g c (schemeValue_data_subset sep _ hc)

lemma findDigitsAfter_subset (pre : List Char) :
    ∀ (s ds : List Char), findDigitsAfter pre s = some ds → ds ⊆ s := by
  intro s
  induction s with
  | nil => intro ds h; simp [findDigitsAfter] at h
  | cons a t ih =>
    intro ds h
    simp only [findDigitsAfter] at h
    split at h
    · split at h
      · exact (ih ds h).trans (List.subset_cons_self a t)
      · have hds := Option.some_inj.mp h
        subst hds
        exact ((List.takeWhile_sublist _).subset).trans (List.drop_subset _ _)
    · exact (ih ds h).trans (List.subset_cons_self a t)

lemma findImdbL_noUpper (g : String) (m : List Char)
    (h : findImdbL (lowerStr g).data = some m) : noUpper (String.mk m) := by
  unfold findImdbL at h
  cases hd : findDigitsAfter ttPat (lowerStr g).data with
  | none => rw [hd] at h; simp at h
  | some ds =>
    rw [hd] at h
    have hm := Option.some_inj.mp h
    subst hm
    intro c hc
    rcases List.mem_cons.mp hc with rfl | hc2
    · unfold noUpperChar; decide
    rcases List.mem_cons.mp hc2 with rfl | hc3
    · unfold noUpperChar; decide
    exact lowerStr_noUpper g c (findDigitsAfter_subset ttPat _ ds hd hc3)

lemma findDigits_noUpper (sep : List Char) (g : String) (ds : List Char)
    (h : findDigitsAfter sep (lowerStr g).data = some ds) : noUpper (String.mk ds) :=
  fun c hc => lowerStr_noUpper g c (findDigitsAfter_subset sep _ ds h hc)

/-- All three entries of an `ids` dictionary hold only strings without
ASCII uppercase letters. -/
def idsNoUpper (ids : Ids) : Prop :=
  (∀ s, ids.imdb = some s → noUpper s)
    ∧ (∀ s, ids.tmdb = some s → noUpper s)
    ∧ (∀ s, ids.tvdb = some s → noUpper s)

lemma emptyIds_noUpper : idsNoUpper emptyIds :=
  ⟨fun _ hs => Option.noConfusion hs, fun _ hs => Option.noConfusion hs,
    fun _ hs => Option.noConfusion hs⟩

lemma scanGuid_noUpper (t : ItemType) (ids : Ids) (g : String) (h : idsNoUpper ids) :
    idsNoUpper (scanGuid t ids g) := by
  simp only [scanGuid]
  split
  · exact ⟨fun s hs => Option.some_inj.mp hs ▸ schemeValue_noUpper imdbSep g,
      h.2.1, h.2.2⟩
  split
  · exact ⟨h.1, fun s hs => Option.some_inj.mp hs ▸ schemeValue_noUpper tmdbSep g,
      h.2.2⟩
  split
  · exact ⟨h.1, h.2.1,
      fun s hs => Option.some_inj.mp hs ▸ schemeValue_noUpper tvdbSep g⟩
  · exact h

lemma fieldImdbStep_noUpper (ids : Ids) (g : String) (h : idsNoUpper ids) :
    idsNoUpper (fieldImdbStep ids (lowerStr g).data) := by
  unfold fieldImdbStep
  split
  · cases hd : findImdbL (lowerStr g).data with
    | none => exact h
    | some m =>
      exact ⟨fun s hs => Option.some_inj.mp hs ▸ findImdbL_noUpper g m hd,
        h.2.1, h.2.2⟩
  · exact h

lemma fieldTmdbStep_noUpper (t : ItemType) (ids : Ids) (g : String) (h : idsNoUpper ids) :
    idsNoUpper (fieldTmdbStep t ids (lowerStr g).data) := by
  unfold fieldTmdbStep
  split
  · cases hd : findDigitsAfter tmdbSep (lowerStr g).data with
    | none => exact h
    | some ds =>
      exact ⟨h.1, fun s hs => Option.some_inj.mp hs ▸ findDigits_noUpper tmdbSep g ds hd,
        h.2.2⟩
  · exact h

lemma fieldTvdbStep_noUpper (t : ItemType) (ids : Ids) (g : String) (h : idsNoUpper ids) :
    idsNoUpper (fieldTvdbStep t ids (lowerStr g).data) := by
  unfold fieldTvdbStep
  split
  · cases hd : findDigitsAfter tvdbSep (lowerStr g).data with
    | none => exact h
    | some ds =>
      exact ⟨h.1, h.2.1,
        fun s hs => Option.some_inj.mp hs ▸ findDigits_noUpper tvdbSep g ds hd⟩
  · exact h

lemma scanField_noUpper (t : ItemType) (ids : Ids) (f : Field) (h : idsNoUpper ids) :
    idsNoUpper (scanField t ids f) := by
  unfold scanField
  split
  · exact fieldTvdbStep_noUpper t _ f.value
      (fieldTmdbStep_noUpper t _ f.value (fieldImdbStep_noUpper _ f.value h))
  · exact h

lemma get_ids_noUpper (item : Item) (t : ItemType) : idsNoUpper (get_ids item t).1 := by
  cases hg : item.guids with
  | error e => simp only [get_ids, hg]; exact emptyIds_noUpper
  | ok gs =>
    have hp : idsNoUpper (primaryScan t gs) := by
      unfold primaryScan
      exact foldl_preserve (scanGuid t) idsNoUpper
        (fun a b ha => scanGuid_noUpper t a b ha) gs emptyIds emptyIds_noUpper
    simp only [get_ids, hg]
    by_cases happ : applicableFound t (primaryScan t gs) = true
    · simp only [happ, if_true]; exact hp
    · simp only [happ, if_false]
      cases hf : item.fields with
      | error e => exact hp
      | ok fl =>
        exact foldl_preserve (scanField t) idsNoUpper
          (fun a b ha => scanField_noUpper t a b ha) fl _ hp

/-- Concrete item with an uppercase imdb annotation, used in C10. -/
def itemTT : Item := ⟨"t", [], Except.ok ["imdb://TT0111161"], Except.ok []⟩

/-- C10: every identifier value returned by the extractor (imdb, tmdb
or tvdb, via either method) is cut out of a lowercased copy of the raw
annotation or field string, so it never contains an (ASCII) uppercase
character; in particular the annotation `imdb://TT0111161` yields
imdb = "tt0111161". -/
theorem C10_lowercase_values :
    (∀ (item : Item) (t : ItemType),
      (∀ s, (get_ids item t).1.imdb = some s → noUpper s)
      ∧ (∀ s, (get_ids item t).1.tmdb = some s → noUpper s)
      ∧ (∀ s, (get_ids item t).1.tvdb = some s → noUpper s))
    ∧ (get_ids itemTT ItemType.movie).1.imdb = some ("tt0111161") :=
  ⟨fun item t => get_ids_noUpper item t, by decide⟩

/-- Witness for C10_lowercase_values: the value extracted from the
uppercase annotation of `itemTT` is uppercase-free. -/
theorem C10_lowercase_values_witness : noUpper ("tt0111161") :=
  (C10_lowercase_values.1 itemTT ItemType.movie).1 ("tt0111161") (by decide)

/-- A filesystem oracle on which nothing exists and walks are empty. -/
def fsEmpty : FS :=
  ⟨fun _ => [], fun _ => false, fun _ => false, fun _ => false, fun _ => false⟩

lemma tvFuzzy_nil (fs : FS) (rp sn : String) (h : fs.walk rp = []) :
    tvFuzzy fs rp sn = none := by
  simp only [tvFuzzy, fuzzyBest, walkDirPairs, h]
  simp

lemma resolveSteps_tv_nowalk (fs : FS) (nfc : String → String) (pp rp : String)
    (h : fs.walk rp = [])
    (hunc : (startsWithL ['\\', '\\'] pp.data && fs.pathExists pp) = false) :
    resolveSteps fs nfc pp rp ItemType.tv = none := by
  unfold resolveSteps
  rw [if_neg (by simp [hunc])]
  have he : tvExact fs rp (nfc (basename pp)) = none := by
    unfold tvExact
    rw [h]
    rfl
  simp only [he]
  exact tvFuzzy_nil fs rp _ h

/-- C3, claim as stated is false: with an empty filesystem no
resolution step matches, yet the resolver does not return the recorded
path `"/media//Show"` exactly as passed in — it returns the normalized
`"/media/Show"`, because lines 160–162 overwrite `plex_path` with its
normalized form before the steps run and line 302 returns that
variable. -/
theorem C3_counterexample :
    resolveSteps fsEmpty id (normalize_path ("/") (id ("/media//Show")))
        (normalize_path ("/") (id ("/r"))) ItemType.tv = none
    ∧ get_local_path fsEmpty id ("/") ("/media//Show") ("/r") ItemType.tv
        = ("/media/Show")
    ∧ ("/media/Show" : String) ≠ ("/media//Show") := by
  have h1 : resolveSteps fsEmpty id (normalize_path ("/") (id ("/media//Show")))
      (normalize_path ("/") (id ("/r"))) ItemType.tv = none :=
    resolveSteps_tv_nowalk fsEmpty id _ _ rfl (by decide)
  refine ⟨h1, ?_, by decide⟩
  unfold get_local_path
  simp only [h1]
  decide

/-- C3 (amended): for every recorded path and root path such that no
resolution step yields an existing path, the resolver returns the
recorded path after Unicode normalization and canonical path
normalization (`normalize_path(normalize_unicode(plex_path))`), which
coincides with the path as passed in only when that path is already in
normalized form. -/
theorem C3_returns_normalized (fs : FS) (nfc : String → String) (cwd pp rp : String)
    (t : ItemType)
    (h : resolveSteps fs nfc (normalize_path cwd (nfc pp))
          (normalize_path cwd (nfc rp)) t = none) :
    get_local_path fs nfc cwd pp rp t = normalize_path cwd (nfc pp) := by
  unfold get_local_path
  simp only [h]

/-- Witness for C3_returns_normalized on the empty filesystem. -/
theorem C3_returns_normalized_witness :
    resolveSteps fsEmpty id (normalize_path ("/") (id ("/x/Show")))
        (normalize_path ("/") (id ("/r"))) ItemType.tv = none
    ∧ get_local_path fsEmpty id ("/") ("/x/Show") ("/r") ItemType.tv
        = normalize_path ("/") (id ("/x/Show")) :=
  ⟨resolveSteps_tv_nowalk fsEmpty id _ _ rfl (by decide),
    C3_returns_normalized fsEmpty id ("/") ("/x/Show") ("/r") ItemType.tv
      (resolveSteps_tv_nowalk fsEmpty id _ _ rfl (by decide))⟩

/-- C8: in dry-run mode the writer performs exactly the checks of
normal mode — path resolution, existence, kind (directory for tv, file
for movie), write permission, identifier availability — reports the
same boolean it would report in normal mode (in the model the final
write succeeds whenever reached), and performs no file write at all:
the write list is empty for every input. -/
theorem C8_dry_run (fs : FS) (nfc : String → String) (cwd pp : String) (ids : Ids)
    (t : ItemType) (rp : String) :
    create_nfo_file fs nfc cwd pp ids t rp true
      = ((create_nfo_file fs nfc cwd pp ids t rp false).1, []) := by
  unfold create_nfo_file
  cases t <;> (try simp only []) <;> (repeat' split) <;> simp_all

/-- Concrete no-identifier item used by the C6 witness. -/
def itemC6 : Item := ⟨"t", ["/p"], Except.ok [], Except.ok []⟩

/-- Witness for C6_no_id_failed: a processed item with no annotations
at all. -/
theorem C6_no_id_failed_witness :
    itemC6.locations = ("/p") :: []
    ∧ applicableFound ItemType.movie (get_ids itemC6 ItemType.movie).1 = false
    ∧ ((truthy (get_ids itemC6 ItemType.movie).1.imdb = false
        ∧ truthy (get_ids itemC6 ItemType.movie).1.tmdb = false
        ∧ truthy (get_ids itemC6 ItemType.movie).1.tvdb = false)
      ∧ processItem fsEmpty id ("/") ItemType.movie ("/r") false itemC6
          = (ItemResult.failed, some (get_ids itemC6 ItemType.movie).2, [])) :=
  ⟨rfl, by decide,
    C6_no_id_failed fsEmpty id ("/") ItemType.movie ("/r") false itemC6 ("/p") []
      rfl (by decide)⟩

/-- Definition following the SPEC'S WORDS for C1 (not the source): the
similarity is the character-set intersection size divided by the size
of the larger name's character set. -/
def specSimScore (a b : String) : ℚ :=
  ((charSet a ∩ charSet b).card : ℚ)
    / ((charSet (if b.data.length ≤ a.data.length then a else b)).card : ℚ)

lemma fuzzyFold_score (sn : String) :
    ∀ (cands : List (String × String)) (acc : Option String × ℚ),
      (List.foldl (fuzzyStepFold sn) acc cands).2 =
        ((cands.filter (fun c => substrEither sn c.2)).map
          (fun c => ((charSet sn ∩ charSet c.2).card : ℚ)
            / ((max sn.data.length c.2.data.length : Nat) : ℚ))).foldl max acc.2 := by
  intro cands
  induction cands with
  | nil => intro acc; rfl
  | cons c cs ih =>
    intro acc
    rw [List.foldl_cons, ih, List.filter_cons]
    by_cases hs : substrEither sn c.2 = true
    · rw [if_pos hs, List.map_cons, List.foldl_cons]
      congr 1
      show (fuzzyStepFold sn acc c).2 = max acc.2 (simScore sn c.2)
      unfold fuzzyStepFold
      rw [if_pos hs]
      by_cases hlt : acc.2 < simScore sn c.2
      · rw [if_pos hlt]
        exact (max_eq_right hlt.le).symm
      · rw [if_neg hlt]
        exact (max_eq_left (le_of_not_lt hlt)).symm
    · rw [if_neg hs]
      congr 1
      show (fuzzyStepFold sn acc c).2 = acc.2
      unfold fuzzyStepFold
      rw [if_neg hs]

/-- C1, claim as stated is false: the show name "ab" and directory
name "abb" are substring-related, the score the code computes is 2/3
(intersection size 2 over the larger string LENGTH 3), but the spec's
formula (intersection size over the larger name's character-SET size,
here 2) gives 1. -/
theorem C1_counterexample :
    substrEither ("ab") ("abb") = true
    ∧ simScore ("ab") ("abb") = 2/3
    ∧ specSimScore ("ab") ("abb") = 1
    ∧ simScore ("ab") ("abb") ≠ specSimScore ("ab") ("abb") := by
  have hcard : ((charSet ("ab") ∩ charSet ("abb")).card : ℚ) = 2 := by
    norm_num [show (charSet ("ab") ∩ charSet ("abb")).card = 2 from by decide]
  have h3 : simScore ("ab") ("abb") = 2/3 := by
    unfold simScore
    rw [hcard, show (max ("ab").data.length ("abb").data.length) = 3 from by decide]
    norm_num
  have h4 : specSimScore ("ab") ("abb") = 1 := by
    unfold specSimScore
    rw [hcard, show (charSet (if ("abb").data.length ≤ ("ab").data.length
      then ("ab") else ("abb"))).card = 2 from by decide]
    norm_num
  exact ⟨by decide, h3, h4, by rw [h3, h4]; norm_num⟩

/-- C1 (amended): in the fuzzy folder match, for every substring-related
pair of names the similarity score computed is the size of the
character-set intersection divided by the LENGTH of the longer of the
two names (counting repeated characters, not the character-set size);
and the running best score of the scan is the maximum of exactly these
scores over the substring-related candidates. -/
theorem C1_similarity_formula :
    (∀ (sn dn : String), substrEither sn dn = true →
      simScore sn dn
        = ((charSet sn ∩ charSet dn).card : ℚ)
            / ((max sn.data.length dn.data.length : Nat) : ℚ))
    ∧ (∀ (sn : String) (cands : List (String × String)),
      (fuzzyBest sn cands).2
        = ((cands.filter (fun c => substrEither sn c.2)).map
            (fun c => ((charSet sn ∩ charSet c.2).card : ℚ)
              / ((max sn.data.length c.2.data.length : Nat) : ℚ))).foldl max 0) :=
  ⟨fun _ _ _ => rfl, fun sn cands => fuzzyFold_score sn cands (none, 0)⟩

/-- Witness for C1_similarity_formula at the names "ab" and "abb". -/
theorem C1_similarity_formula_witness :
    substrEither ("ab") ("abb") = true
    ∧ simScore ("ab") ("abb")
        = ((charSet ("ab") ∩ charSet ("abb")).card : ℚ)
            / ((max ("ab").data.length ("abb").data.length : Nat) : ℚ) :=
  ⟨by decide, C1_similarity_formula.1 ("ab") ("abb") (by decide)⟩

lemma fuzzyBest_isSome (sn : String) (cands : List (String × String))
    (h : 0 < (fuzzyBest sn cands).2) : (fuzzyBest sn cands).1.isSome = true := by
  unfold fuzzyBest at *
  refine foldl_preserve (fuzzyStepFold sn)
    (fun acc => 0 < acc.2 → acc.1.isSome = true) ?_ cands (none, 0) ?_ h
  · intro a c ha
    simp only [fuzzyStepFold]
    split
    · split
      · intro _; rfl
      · exact ha
    · exact ha
  · intro h0
    exact absurd h0 (lt_irrefl 0)

/-- The ten-distinct-character show name giving a best score of
exactly 0.70 against `dir70`. -/
def show70 : String := "abcdefghij"

/-- A seven-character prefix of `show70`. -/
def dir70 : String := "abcdefg"

/-- Filesystem whose only directory is `dir70`. -/
def fs70 : FS :=
  ⟨fun _ => [(("/r"), [dir70], [])], fun _ => false, fun _ => false,
    fun _ => false, fun _ => false⟩

/-- A 100-distinct-character show name (Greek letters upward). -/
def bigShow : String := String.mk ((List.range 100).map (fun i => Char.ofNat (945 + i)))

/-- The 71-character prefix of `bigShow`, giving score exactly 0.71. -/
def bigDir : String := String.mk ((List.range 71).map (fun i => Char.ofNat (945 + i)))

/-- Filesystem whose only directory is `bigDir`. -/
def fs71 : FS :=
  ⟨fun _ => [(("/r"), [bigDir], [])], fun _ => false, fun _ => false,
    fun _ => false, fun _ => false⟩

lemma fuzzyBest_single (sn r dn : String) (q : ℚ)
    (hs : substrEither sn dn = true) (hq : simScore sn dn = q) (hpos : 0 < q) :
    fuzzyBest sn [(r, dn)] = (some (posixJoin r dn), q) := by
  unfold fuzzyBest
  rw [List.foldl_cons, List.foldl_nil]
  unfold fuzzyStepFold
  rw [if_pos hs, hq]
  rw [if_pos (show ((none, (0 : ℚ)) : Option String × ℚ).2 < q from hpos)]

lemma score70 : simScore show70 dir70 = 7/10 := by
  unfold simScore
  rw [show ((charSet show70 ∩ charSet dir70).card : ℚ) = 7 from by
    norm_num [show (charSet show70 ∩ charSet dir70).card = 7 from by decide]]
  rw [show (max show70.data.length dir70.data.length) = 10 from by decide]
  norm_num

set_option maxRecDepth 10000 in
lemma score71 : simScore bigShow bigDir = 71/100 := by
  unfold simScore
  rw [show ((charSet bigShow ∩ charSet bigDir).card : ℚ) = 71 from by
    norm_num [show (charSet bigShow ∩ charSet bigDir).card = 71 from by decide]]
  rw [show (max bigShow.data.length bigDir.data.length) = 100 from by decide]
  norm_num

lemma best70 : fuzzyBest show70 (walkDirPairs fs70 ("/r"))
    = (some (posixJoin ("/r") dir70), 7/10) := by
  show fuzzyBest show70 [(("/r"), dir70)] = _
  exact fuzzyBest_single show70 ("/r") dir70 (7/10) (by decide) score70 (by norm_num)

set_option maxRecDepth 10000 in
lemma best71 : fuzzyBest bigShow (walkDirPairs fs71 ("/r"))
    = (some (posixJoin ("/r") bigDir), 71/100) := by
  show fuzzyBest bigShow [(("/r"), bigDir)] = _
  exact fuzzyBest_single bigShow ("/r") bigDir (71/100) (by decide) score71 (by norm_num)

/-- C4: in the fuzzy folder match for Collection (tv) items, the
best-scoring candidate is accepted if and only if the best score is
strictly greater than 0.7 (modelled in exact rational arithmetic): in
general the fuzzy step yields a path exactly when the best score
exceeds 7/10; concretely, a best score of exactly 0.70 yields no
match, while a best score of 0.71 is accepted. -/
theorem C4_threshold :
    (∀ (fs : FS) (rp sn : String),
      ((tvFuzzy fs rp sn).isSome = true
        ↔ (7 : ℚ)/10 < (fuzzyBest sn (walkDirPairs fs rp)).2))
    ∧ ((fuzzyBest show70 (walkDirPairs fs70 ("/r"))).2 = 7/10
        ∧ tvFuzzy fs70 ("/r") show70 = none)
    ∧ ((fuzzyBest bigShow (walkDirPairs fs71 ("/r"))).2 = 71/100
        ∧ tvFuzzy fs71 ("/r") bigShow = some (posixJoin ("/r") bigDir)) := by
  refine ⟨fun fs rp sn => ?_, ⟨by rw [best70], ?_⟩, ⟨by rw [best71], ?_⟩⟩
  · simp only [tvFuzzy]
    by_cases h : (7 : ℚ)/10 < (fuzzyBest sn (walkDirPairs fs rp)).2
    · rw [if_pos h]
      exact ⟨fun _ => h,
        fun _ => fuzzyBest_isSome sn _ (lt_trans (by norm_num) h)⟩
    · rw [if_neg h]
      simp [h]
  · simp only [tvFuzzy, best70]
    rw [if_neg (by norm_num)]
  · simp only [tvFuzzy, best71]
    rw [if_pos (by norm_num)]

end PlexNfo
